import Mathlib

/-!
The inactive-follows listing of `profile.go` (repository bsky).

A shallow embedding of `doInactiveFollows`, `outputAccount`, `colorFor` and
`getLatestPost` from `profile.go`, with the remote API, the clock and the
terminal made explicit:

* instants (`time.Time`) are integers, nanoseconds since the epoch, and
  durations (`time.Duration`) are integers in the signed 64-bit range;
* the remote calls `bsky.GraphGetFollows` and `bsky.FeedGetAuthorFeed` are
  fields of `Env`; an answer may depend on how many requests of the same
  kind came before, so the server may be stateful;
* standard output is a list of `Out` items, the requests sent are a list of
  `Request` items, both in the order in which the program produces them;
* a call ends by returning an `error` value or by a panic (`Exit`): the
  pointer `f.Viewer` is dereferenced without a test for `nil`;
* the `for` loop over the pages takes fuel, one unit per page request.
-/

set_option maxRecDepth 8000

namespace Bsky

/-! ## Colours, instants and `colorFor` -/

/-- The `color.Attribute` values that `profile.go` uses. -/
inductive Attribute where
  | Reset
  | FgRed
  | FgGreen
  | FgYellow
  | FgBlue
  | FgCyan
  | FgHiRed
  deriving DecidableEq, Repr

/-- Smallest `time.Duration`, in nanoseconds. -/
def minDuration : Int := -(2 ^ 63)

/-- Largest `time.Duration`, in nanoseconds. -/
def maxDuration : Int := 2 ^ 63 - 1

/-- One `time.Hour`, in nanoseconds. -/
def Hour : Int := 3600 * 1000000000

/-- The method `t.Sub(u)` of `time.Time`: the duration `t - u`, replaced by the
smallest or the largest duration when it does not fit in 64 bits. -/
def Sub (t u : Int) : Int :=
  if t - u < minDuration then minDuration
  else if maxDuration < t - u then maxDuration
  else t - u

/-- The function `colorFor`, with the reading of `time.Now()` as `now`. -/
def colorFor (now date : Int) : Attribute :=
  let duration := Sub now date
  let weeksAgo := 7 * 24 * Hour
  let monthAgo := 30 * 24 * Hour
  let yearAgo := 365 * 24 * Hour
  if duration ≤ weeksAgo then Attribute.FgGreen
  else if duration ≤ monthAgo then Attribute.FgCyan
  else if duration ≤ yearAgo then Attribute.FgYellow
  else Attribute.FgRed

/-! ## Data returned by the remote API -/

/-- A Go `error`: one reported by a library call, or one built by
`fmt.Errorf(text + ": %w", err)` around another error. -/
inductive GoError where
  | cause (text : String)
  | wrap (text : String) (err : GoError)
  deriving DecidableEq, Repr

/-- The method `Error()`: the message of an error. -/
def GoError.Error : GoError → String
  | GoError.cause text => text
  | GoError.wrap text err => text ++ ": " ++ err.Error

deriving instance DecidableEq for Except

/-- The type `bsky.ActorDefs_ViewerState`, with the one field the listing reads. -/
structure ActorDefs_ViewerState where
  FollowedBy : Option String
  deriving DecidableEq, Repr

/-- The type `bsky.ActorDefs_ProfileView`, with the fields the listing reads.
`DisplayName` and `Viewer` are pointers: the server may leave out the display
name and the viewer relationship state, and they are then `nil`. -/
structure ActorDefs_ProfileView where
  Did : String
  Handle : String
  DisplayName : Option String
  Viewer : Option ActorDefs_ViewerState
  deriving DecidableEq, Repr

/-- The type `bsky.FeedDefs_PostView`, with the one field the listing reads. -/
structure FeedDefs_PostView where
  IndexedAt : String
  deriving DecidableEq, Repr

/-- The type `bsky.FeedDefs_FeedViewPost`; its `Post` is a pointer that the
listing compares with `nil`. -/
structure FeedDefs_FeedViewPost where
  Post : Option FeedDefs_PostView
  deriving DecidableEq, Repr

/-- One page of follows; `Cursor` is a pointer, `nil` on the last page. -/
structure GraphGetFollows_Output where
  Cursor : Option String
  Follows : List ActorDefs_ProfileView
  deriving DecidableEq, Repr

/-- The answer to an author feed request. -/
structure FeedGetAuthorFeed_Output where
  Feed : List FeedDefs_FeedViewPost
  deriving DecidableEq, Repr

/-! ## The world around the program -/

/-- A request sent to the server, with the arguments of the call. -/
inductive Request where
  | GraphGetFollows (actor cursor : String) (limit : Nat)
  | FeedGetAuthorFeed (actor filter cursor : String) (limit : Nat)
  deriving DecidableEq, Repr

/-- One write to standard output: `color.Set`, `fmt.Print` or `fmt.Printf`
with the formatted text, `json.NewEncoder(os.Stdout).Encode`, or the help text
of `cli.ShowSubcommandHelp`. -/
inductive Out where
  | Set (value : Attribute)
  | Print (text : String)
  | Encode (f : ActorDefs_ProfileView)
  | Help
  deriving DecidableEq, Repr

/-- How a call of `doInactiveFollows` ends: it returns an `error` value (`none`
for `nil`), or the program panics on a nil pointer dereference. -/
inductive Exit where
  | returned (err : Option GoError)
  | panicked
  deriving DecidableEq, Repr

/-- What the program has done so far: requests sent and output written. -/
structure State where
  reqs : List Request
  out : List Out
  deriving DecidableEq, Repr

/-- Everything outside `profile.go` that the listing calls.

`GraphGetFollows i` and `FeedGetAuthorFeed j` answer the request that comes
after `i` (after `j`) earlier requests of the same kind. `Now j` is the reading
of `time.Now()` inside `colorFor` and `humanizeTime j` the text of
`humanize.Time` while the account of latest-post request `j` is handled.
`Parse` is `time.Parse(time.RFC3339, ·)`, `none` when it returns an error.
`stringp`, `makeXRPCC` (here: the handle of the session, or an error) are
helpers of this repository defined outside `profile.go`. -/
structure Env where
  GraphGetFollows : Nat → String → String → Nat → Except GoError GraphGetFollows_Output
  FeedGetAuthorFeed : Nat → String → String → String → Nat →
    Except GoError FeedGetAuthorFeed_Output
  Now : Nat → Int
  Parse : String → Option Int
  humanizeTime : Nat → Int → String
  stringp : Option String → String
  makeXRPCC : Except GoError String
  ShowSubcommandHelp : Option GoError

/-- The command line as `cli.Context` exposes it to `doInactiveFollows`. -/
structure Context where
  argsPresent : Bool
  handle : String
  strict : Bool
  json : Bool
  deriving DecidableEq, Repr

/-- Whether a request is a page request. -/
def Request.isFollows : Request → Bool
  | Request.GraphGetFollows _ _ _ => true
  | Request.FeedGetAuthorFeed _ _ _ _ => false

/-- Whether a request is a latest-post request. -/
def Request.isFeed : Request → Bool
  | Request.GraphGetFollows _ _ _ => false
  | Request.FeedGetAuthorFeed _ _ _ _ => true

/-- Number of page requests sent so far. -/
def State.sentFollows (st : State) : Nat := st.reqs.countP Request.isFollows

/-- Number of latest-post requests sent so far. -/
def State.sentFeeds (st : State) : Nat := st.reqs.countP Request.isFeed

/-- The state after one more request. -/
def State.send (st : State) (r : Request) : State :=
  { st with reqs := st.reqs ++ [r] }

/-- The state after more output. -/
def State.write (st : State) (o : List Out) : State :=
  { st with out := st.out ++ o }

/-! ## The functions of `profile.go` -/

/-- The function `outputAccount`: the writes it performs, in order. -/
def outputAccount (env : Env) (f : ActorDefs_ProfileView) (statusColor : Attribute)
    (prettyTime : String) (followsMe : Bool) : List Out :=
  [Out.Set Attribute.FgHiRed, Out.Print f.Handle, Out.Set Attribute.Reset,
   Out.Print (" [" ++ env.stringp f.DisplayName ++ "] "),
   Out.Set Attribute.FgBlue, Out.Print f.Did, Out.Set Attribute.Reset] ++
  (if followsMe then [Out.Set Attribute.FgGreen, Out.Print " [💚] "]
   else [Out.Set Attribute.FgRed, Out.Print " [❌] "]) ++
  [Out.Set Attribute.Reset, Out.Set statusColor,
   Out.Print (" [" ++ prettyTime ++ "]\n"), Out.Set Attribute.Reset]

/-- The function `getLatestPost`: one author feed request with limit 1. -/
def getLatestPost (env : Env) (st : State) (handle : String) :
    State × Except GoError (Option FeedDefs_FeedViewPost) :=
  let st1 := st.send (Request.FeedGetAuthorFeed handle "" "" 1)
  match env.FeedGetAuthorFeed st.sentFeeds handle "" "" 1 with
  | Except.error err => (st1, Except.error (GoError.wrap "cannot get author feed" err))
  | Except.ok resp =>
    match resp.Feed with
    | [] => (st1, Except.ok none)
    | post :: _ => (st1, Except.ok (some post))

/-- The body of the human-readable loop of `doInactiveFollows` from the test
`strict && followsMe` on: the writes for one followed account, `j` being the
number of latest-post requests sent before this account's. -/
def followReport (env : Env) (strict : Bool) (j : Nat) (f : ActorDefs_ProfileView)
    (followsMe : Bool) (latestPost : Option FeedDefs_FeedViewPost) : List Out :=
  if strict && followsMe then []
  else
    match latestPost with
    | none => outputAccount env f Attribute.FgHiRed "never" followsMe
    | some { Post := none } => outputAccount env f Attribute.FgHiRed "never" followsMe
    | some { Post := some post } =>
      let parsed := env.Parse post.IndexedAt
      let cor :=
        match parsed with
        | none => Attribute.FgRed
        | some dtime => colorFor (env.Now j) dtime
      let prettyTime :=
        match parsed with
        | none => post.IndexedAt
        | some dtime => env.humanizeTime j dtime
      let inactiveColors := [Attribute.FgRed, Attribute.FgYellow]
      if strict && !inactiveColors.contains cor then []
      else outputAccount env f cor prettyTime followsMe

/-- One iteration of the human-readable loop over `follows.Follows`. An error
of `getLatestPost` ends `doInactiveFollows`; then `f.Viewer.FollowedBy != nil`
dereferences `f.Viewer`, and the program panics when that pointer is `nil`. -/
def followStep (env : Env) (strict : Bool) (st : State) (f : ActorDefs_ProfileView) :
    State × Exit :=
  match getLatestPost env st f.Handle with
  | (st1, Except.error err) =>
    (st1, Exit.returned (some (GoError.wrap "getting latest post" err)))
  | (st1, Except.ok latestPost) =>
    match f.Viewer with
    | none => (st1, Exit.panicked)
    | some viewer =>
      let followsMe := viewer.FollowedBy.isSome
      (st1.write (followReport env strict st.sentFeeds f followsMe latestPost),
        Exit.returned none)

/-- The human-readable loop `for _, f := range follows.Follows`. -/
def rangeFollows (env : Env) (strict : Bool) :
    State → List ActorDefs_ProfileView → State × Exit
  | st, [] => (st, Exit.returned none)
  | st, f :: fs =>
    match followStep env strict st f with
    | (st1, Exit.returned none) => rangeFollows env strict st1 fs
    | (st1, exit) => (st1, exit)

/-- The JSON loop `for _, f := range follows.Follows`. -/
def rangeEncode (st : State) (fs : List ActorDefs_ProfileView) : State :=
  st.write (fs.map Out.Encode)

/-- The loop `for` of `doInactiveFollows` over the pages; `none` when the fuel
runs out before the loop ends. -/
def pageLoop (env : Env) (arg : String) (strict json : Bool) :
    Nat → String → State → Option (State × Exit)
  | 0, _, _ => none
  | fuel + 1, cursor, st =>
    let st1 := st.send (Request.GraphGetFollows arg cursor 100)
    match env.GraphGetFollows st.sentFollows arg cursor 100 with
    | Except.error err =>
      some (st1, Exit.returned (some (GoError.wrap "getting record" err)))
    | Except.ok follows =>
      let done : State × Exit :=
        if json then (rangeEncode st1 follows.Follows, Exit.returned none)
        else rangeFollows env strict st1 follows.Follows
      match done with
      | (st2, Exit.returned none) =>
        match follows.Cursor with
        | none => some (st2, Exit.returned none)
        | some next => pageLoop env arg strict json fuel next st2
      | (st2, exit) => some (st2, exit)

/-- The function `doInactiveFollows`: the final state and the way the call
ends, or `none` when the fuel runs out. -/
def doInactiveFollows (env : Env) (cCtx : Context) (fuel : Nat) :
    Option (State × Exit) :=
  if cCtx.argsPresent then
    some ({ reqs := [], out := [Out.Help] }, Exit.returned env.ShowSubcommandHelp)
  else
    match env.makeXRPCC with
    | Except.error err =>
      some ({ reqs := [], out := [] },
        Exit.returned (some (GoError.wrap "cannot create client" err)))
    | Except.ok authHandle =>
      let arg := if cCtx.handle = "" then authHandle else cCtx.handle
      pageLoop env arg cCtx.strict cCtx.json fuel "" { reqs := [], out := [] }

/-! ## Describing a run -/

/-- The latest-post request for an account. -/
def feedReq (f : ActorDefs_ProfileView) : Request :=
  Request.FeedGetAuthorFeed f.Handle "" "" 1

/-- The accounts of a sequence of pages, in arrival order. -/
def accounts : List GraphGetFollows_Output → List ActorDefs_ProfileView
  | [] => []
  | p :: ps => p.Follows ++ accounts ps

/-- Whether the iterations for the accounts `fs` all end normally: the server
answers the latest-post requests number `j`, `j + 1`, ... made for them, in
this order, without error, and every account carries a viewer relationship
state, so that `f.Viewer.FollowedBy` does not panic. -/
def stepsOk (env : Env) : Nat → List ActorDefs_ProfileView → Bool
  | _, [] => true
  | j, f :: fs =>
    (env.FeedGetAuthorFeed j f.Handle "" "" 1).toBool && f.Viewer.isSome &&
      stepsOk env (j + 1) fs

/-- The latest post of `f` as the server reports it to latest-post request
number `j`: the first entry of the feed, if any. -/
def latestPost (env : Env) (j : Nat) (f : ActorDefs_ProfileView) :
    Option FeedDefs_FeedViewPost :=
  match env.FeedGetAuthorFeed j f.Handle "" "" 1 with
  | Except.ok resp => resp.Feed.head?
  | Except.error _ => none

/-- The mutual-follow flag of an account: whether its viewer relationship state
carries a followed-by back-reference. -/
def followsBack (f : ActorDefs_ProfileView) : Bool :=
  match f.Viewer with
  | some viewer => viewer.FollowedBy.isSome
  | none => false

/-- The writes of the loop body for the accounts `fs`, the first of which is
handled with latest-post request number `j`. -/
def reports (env : Env) (strict : Bool) : Nat → List ActorDefs_ProfileView → List Out
  | _, [] => []
  | j, f :: fs =>
    followReport env strict j f (followsBack f) (latestPost env j f) ++ reports env strict (j + 1) fs

/-- Whether the server answers page request number `i`, sent with cursor `c`,
with the first page of the list, the next request, sent with the cursor of that
page, with the second page, and so on. -/
def served (env : Env) (arg : String) : Nat → String → List GraphGetFollows_Output → Bool
  | _, _, [] => true
  | i, c, p :: ps =>
    decide (env.GraphGetFollows i arg c 100 = Except.ok p) &&
      served env arg (i + 1) (p.Cursor.getD "") ps

/-- The requests of one turn of the page loop that does not fail. -/
def pageReqs (json : Bool) (arg c : String) (p : GraphGetFollows_Output) : List Request :=
  Request.GraphGetFollows arg c 100 :: (if json then [] else p.Follows.map feedReq)

/-- The requests of successive turns of the page loop, starting with cursor `c`. -/
def runReqs (json : Bool) (arg : String) : String → List GraphGetFollows_Output → List Request
  | _, [] => []
  | c, p :: ps => pageReqs json arg c p ++ runReqs json arg (p.Cursor.getD "") ps

/-- The cursor in hand after the pages `ps`, starting from `c`. -/
def cursorAfter : String → List GraphGetFollows_Output → String
  | c, [] => c
  | _, p :: ps => cursorAfter (p.Cursor.getD "") ps

/-- The writes of the page loop for the accounts `fs`. -/
def pageOut (env : Env) (strict json : Bool) (j : Nat) (fs : List ActorDefs_ProfileView) :
    List Out :=
  if json then fs.map Out.Encode else reports env strict j fs

/-- The effective subject of the listing: the handle flag, or the handle of the
session when the flag is empty. -/
def subject (cCtx : Context) (authHandle : String) : String :=
  if cCtx.handle = "" then authHandle else cCtx.handle

/-- The recency of an account whose latest post is `latestPost`: status colour
and text. Without post it is "never"; with a post it is the bucket colour of
`colorFor` and the relative time, or the raw timestamp when it does not parse. -/
def recency (env : Env) (j : Nat) : Option FeedDefs_FeedViewPost → Attribute × String
  | none => (Attribute.FgHiRed, "never")
  | some { Post := none } => (Attribute.FgHiRed, "never")
  | some { Post := some post } =>
    match env.Parse post.IndexedAt with
    | none => (Attribute.FgRed, post.IndexedAt)
    | some dtime => (colorFor (env.Now j) dtime, env.humanizeTime j dtime)

/-- One entry per account of `fs`, in order: the account with its mutual-follow
flag and its recency. -/
def entries (env : Env) : Nat → List ActorDefs_ProfileView → List Out
  | _, [] => []
  | j, f :: fs =>
    outputAccount env f (recency env j (latestPost env j f)).1
      (recency env j (latestPost env j f)).2 (followsBack f) ++
    entries env (j + 1) fs

/-! ## A sample world for the examples -/

/-- One 24-hour day, in nanoseconds. -/
def day : Int := 24 * Hour

/-- The instant 2024-01-01T00:00:00Z. -/
def sampleNow : Int := 1704067200 * 1000000000

/-- A parser that knows five RFC3339 timestamps, 2, 20, 100, 365 and 400 days
before `sampleNow`. -/
def sampleParse (s : String) : Option Int :=
  if s = "2023-12-30T00:00:00Z" then some (sampleNow - 2 * day)
  else if s = "2023-12-12T00:00:00Z" then some (sampleNow - 20 * day)
  else if s = "2023-09-23T00:00:00Z" then some (sampleNow - 100 * day)
  else if s = "2023-01-01T00:00:00Z" then some (sampleNow - 365 * day)
  else if s = "2022-11-27T00:00:00Z" then some (sampleNow - 400 * day)
  else none

/-- A relative time text for the sample timestamps. -/
def sampleHumanize (date : Int) : String :=
  if sampleNow - date = 2 * day then "2 days ago"
  else if sampleNow - date = 20 * day then "2 weeks ago"
  else if sampleNow - date = 100 * day then "3 months ago"
  else if sampleNow - date = 365 * day then "1 year ago"
  else if sampleNow - date = 400 * day then "1 year ago"
  else "long ago"

/-- An author feed with one post indexed at `indexedAt`. -/
def feedOf (indexedAt : String) : FeedGetAuthorFeed_Output :=
  { Feed := [{ Post := some { IndexedAt := indexedAt } }] }

/-- The author feeds of the sample server, by handle. -/
def sampleFeed (handle : String) : Except GoError FeedGetAuthorFeed_Output :=
  if handle = "a.test" then Except.ok { Feed := [] }
  else if handle = "b.test" then Except.ok (feedOf "2023-12-30T00:00:00Z")
  else if handle = "c.test" then Except.ok (feedOf "2022-11-27T00:00:00Z")
  else if handle = "m.test" then Except.ok (feedOf "2023-12-12T00:00:00Z")
  else if handle = "y.test" then Except.ok (feedOf "2023-09-23T00:00:00Z")
  else if handle = "z.test" then Except.ok (feedOf "2023-01-01T00:00:00Z")
  else if handle = "r.test" then Except.ok (feedOf "yesterday")
  else if handle = "e.test" then Except.ok { Feed := [{ Post := none }] }
  else Except.error (GoError.cause "feed unavailable")

/-- The sample world: the server answers page request `i` with `pages[i]`,
the clock stands at `sampleNow`, a missing display name prints as nothing. -/
def sampleEnv (pages : List GraphGetFollows_Output) : Env where
  GraphGetFollows i _ _ _ :=
    match pages.get? i with
    | some page => Except.ok page
    | none => Except.error (GoError.cause "no such page")
  FeedGetAuthorFeed _ handle _ _ _ := sampleFeed handle
  Now _ := sampleNow
  Parse := sampleParse
  humanizeTime _ date := sampleHumanize date
  stringp name := name.getD ""
  makeXRPCC := Except.ok "me.test"
  ShowSubcommandHelp := none

/-- A followed account of the examples, with a viewer relationship state. -/
def account (handle : String) (followedBy : Option String) : ActorDefs_ProfileView :=
  { Did := "did:plc:" ++ handle, Handle := handle, DisplayName := none,
    Viewer := some { FollowedBy := followedBy } }

/-- A followed account returned without viewer relationship state. -/
def bareAccount (handle : String) : ActorDefs_ProfileView :=
  { Did := "did:plc:" ++ handle, Handle := handle, DisplayName := none, Viewer := none }

/-- The state before the first request. -/
def start : State := { reqs := [], out := [] }

/-! ## Theorems -/

/-- C1: with `d = now - date`, `colorFor` returns green iff `d ≤ 7*24h`, cyan
iff `7*24h < d ≤ 30*24h`, yellow iff `30*24h < d ≤ 365*24h` and red iff
`365*24h < d`; the durations of exactly 7, 30 and 365 days fall in the lower
bucket, and a date in the future is green. -/
theorem colorFor_buckets (now date : Int) :
    (colorFor now date = Attribute.FgGreen ↔ now - date ≤ 7 * 24 * Hour) ∧
    (colorFor now date = Attribute.FgCyan ↔
      7 * 24 * Hour < now - date ∧ now - date ≤ 30 * 24 * Hour) ∧
    (colorFor now date = Attribute.FgYellow ↔
      30 * 24 * Hour < now - date ∧ now - date ≤ 365 * 24 * Hour) ∧
    (colorFor now date = Attribute.FgRed ↔ 365 * 24 * Hour < now - date) ∧
    colorFor now (now - 7 * 24 * Hour) = Attribute.FgGreen ∧
    colorFor now (now - 30 * 24 * Hour) = Attribute.FgCyan ∧
    colorFor now (now - 365 * 24 * Hour) = Attribute.FgYellow ∧
    (now - date < 0 → colorFor now date = Attribute.FgGreen) := by
  have key : ∀ d : Int, colorFor now (now - d) =
      if d ≤ 7 * 24 * Hour then Attribute.FgGreen
      else if d ≤ 30 * 24 * Hour then Attribute.FgCyan
      else if d ≤ 365 * 24 * Hour then Attribute.FgYellow
      else Attribute.FgRed := by
    intro d
    simp only [colorFor, Sub, minDuration, maxDuration, Hour, sub_sub_cancel]
    split_ifs <;> first | rfl | omega
  have hd : date = now - (now - date) := by ring
  rw [hd, key]
  simp only [sub_sub_cancel, key]
  simp only [Hour]
  refine ⟨?_, ?_, ?_, ?_, ?_, ?_, ?_, ?_⟩
  all_goals first
    | (split_ifs <;> simp <;> omega)
    | simp

/-- Witness of `colorFor_buckets`: a date one nanosecond in the future is green. -/
theorem colorFor_buckets_witness : colorFor 0 1 = Attribute.FgGreen :=
  (colorFor_buckets 0 1).2.2.2.2.2.2.2 (by decide)

/-! ### Bookkeeping -/

@[simp] theorem sentFeeds_send_feed (st : State) (a b c : String) (n : Nat) :
    (st.send (Request.FeedGetAuthorFeed a b c n)).sentFeeds = st.sentFeeds + 1 := by
  simp [State.send, State.sentFeeds, List.countP_append, Request.isFeed]

@[simp] theorem sentFeeds_send_follows (st : State) (a c : String) (n : Nat) :
    (st.send (Request.GraphGetFollows a c n)).sentFeeds = st.sentFeeds := by
  simp [State.send, State.sentFeeds, List.countP_append, Request.isFeed]

@[simp] theorem sentFollows_send_feed (st : State) (a b c : String) (n : Nat) :
    (st.send (Request.FeedGetAuthorFeed a b c n)).sentFollows = st.sentFollows := by
  simp [State.send, State.sentFollows, List.countP_append, Request.isFollows]

@[simp] theorem sentFollows_send_follows (st : State) (a c : String) (n : Nat) :
    (st.send (Request.GraphGetFollows a c n)).sentFollows = st.sentFollows + 1 := by
  simp [State.send, State.sentFollows, List.countP_append, Request.isFollows]

@[simp] theorem sentFeeds_write (st : State) (o : List Out) :
    (st.write o).sentFeeds = st.sentFeeds := rfl

@[simp] theorem sentFollows_write (st : State) (o : List Out) :
    (st.write o).sentFollows = st.sentFollows := rfl

@[simp] theorem send_reqs (st : State) (r : Request) : (st.send r).reqs = st.reqs ++ [r] := rfl

@[simp] theorem send_out (st : State) (r : Request) : (st.send r).out = st.out := rfl

@[simp] theorem write_reqs (st : State) (o : List Out) : (st.write o).reqs = st.reqs := rfl

@[simp] theorem write_out (st : State) (o : List Out) : (st.write o).out = st.out ++ o := rfl

theorem countP_isFeed_map_feedReq (fs : List ActorDefs_ProfileView) :
    (fs.map feedReq).countP Request.isFeed = fs.length := by
  induction fs with
  | nil => rfl
  | cons f fs ih => simp [feedReq, Request.isFeed] at ih ⊢

theorem countP_isFollows_map_feedReq (fs : List ActorDefs_ProfileView) :
    (fs.map feedReq).countP Request.isFollows = 0 := by
  induction fs with
  | nil => rfl
  | cons f fs ih => simp [feedReq, Request.isFollows] at ih ⊢

/-! ### One followed account in human-readable mode -/

theorem getLatestPost_error {env : Env} {st : State} {handle : String} {err : GoError}
    (h : env.FeedGetAuthorFeed st.sentFeeds handle "" "" 1 = Except.error err) :
    getLatestPost env st handle =
      (st.send (Request.FeedGetAuthorFeed handle "" "" 1),
        Except.error (GoError.wrap "cannot get author feed" err)) := by
  simp only [getLatestPost, h]

theorem getLatestPost_ok {env : Env} {st : State} {handle : String}
    {resp : FeedGetAuthorFeed_Output}
    (h : env.FeedGetAuthorFeed st.sentFeeds handle "" "" 1 = Except.ok resp) :
    getLatestPost env st handle =
      (st.send (Request.FeedGetAuthorFeed handle "" "" 1), Except.ok resp.Feed.head?) := by
  simp only [getLatestPost, h]
  cases resp.Feed <;> rfl

theorem followStep_error {env : Env} {st : State} {f : ActorDefs_ProfileView} {err : GoError}
    (strict : Bool)
    (h : env.FeedGetAuthorFeed st.sentFeeds f.Handle "" "" 1 = Except.error err) :
    followStep env strict st f =
      (st.send (Request.FeedGetAuthorFeed f.Handle "" "" 1),
        Exit.returned (some (GoError.wrap "getting latest post"
          (GoError.wrap "cannot get author feed" err)))) := by
  simp only [followStep, getLatestPost_error h]

theorem followStep_ok {env : Env} {st : State} {f : ActorDefs_ProfileView}
    {resp : FeedGetAuthorFeed_Output} {viewer : ActorDefs_ViewerState} (strict : Bool)
    (h : env.FeedGetAuthorFeed st.sentFeeds f.Handle "" "" 1 = Except.ok resp)
    (hv : f.Viewer = some viewer) :
    followStep env strict st f =
      ((st.send (Request.FeedGetAuthorFeed f.Handle "" "" 1)).write
        (followReport env strict st.sentFeeds f viewer.FollowedBy.isSome resp.Feed.head?),
        Exit.returned none) := by
  simp only [followStep, getLatestPost_ok h, hv]

theorem followStep_panic {env : Env} {st : State} {f : ActorDefs_ProfileView}
    {resp : FeedGetAuthorFeed_Output} (strict : Bool)
    (h : env.FeedGetAuthorFeed st.sentFeeds f.Handle "" "" 1 = Except.ok resp)
    (hv : f.Viewer = none) :
    followStep env strict st f =
      (st.send (Request.FeedGetAuthorFeed f.Handle "" "" 1), Exit.panicked) := by
  simp only [followStep, getLatestPost_ok h, hv]

theorem isSome_of_ne_none {α : Type} {o : Option α} (h : o ≠ none) : o.isSome = true := by
  cases o with
  | none => exact absurd rfl h
  | some v => rfl

/-- C2: in strict mode the iteration for an account that follows back (its
viewer state carries a followed-by back-reference) writes nothing, whatever the server answers to the latest-post request: an error, an
empty feed, an entry without post, or a post with any timestamp. -/
theorem strict_drops_mutual (env : Env) (st : State) (f : ActorDefs_ProfileView)
    (viewer : ActorDefs_ViewerState) (hv : f.Viewer = some viewer)
    (hf : viewer.FollowedBy ≠ none) :
    (followStep env true st f).1.out = st.out := by
  have h : viewer.FollowedBy.isSome = true := isSome_of_ne_none hf
  cases hr : env.FeedGetAuthorFeed st.sentFeeds f.Handle "" "" 1 with
  | error err => rw [followStep_error true hr]; rfl
  | ok resp => rw [followStep_ok true hr hv]; simp [followReport, h, State.write, State.send]

/-- Witness of `strict_drops_mutual`: a mutual follow that posted two days ago. -/
theorem strict_drops_mutual_witness :
    (followStep (sampleEnv []) true start (account "b.test" (some "at://follow/1"))).1.out = [] :=
  strict_drops_mutual (sampleEnv []) start (account "b.test" (some "at://follow/1"))
    { FollowedBy := some "at://follow/1" } rfl (by decide)

/-- C3: in strict mode, for an account that does not follow back: when the
latest post has a timestamp that parses, the account is dropped if `colorFor`
gives green or cyan and written with that colour if `colorFor` gives yellow or
red; when there is no latest post the account is written as "never". -/
theorem strict_filter_non_mutual (env : Env) (st : State) (f : ActorDefs_ProfileView)
    (hf : f.Viewer = some { FollowedBy := none }) :
    (∀ post rest t,
      env.FeedGetAuthorFeed st.sentFeeds f.Handle "" "" 1 =
          Except.ok { Feed := { Post := some post } :: rest } →
      env.Parse post.IndexedAt = some t →
      ((colorFor (env.Now st.sentFeeds) t = Attribute.FgGreen ∨
          colorFor (env.Now st.sentFeeds) t = Attribute.FgCyan) →
        followStep env true st f =
          (st.send (Request.FeedGetAuthorFeed f.Handle "" "" 1), Exit.returned none)) ∧
      ((colorFor (env.Now st.sentFeeds) t = Attribute.FgYellow ∨
          colorFor (env.Now st.sentFeeds) t = Attribute.FgRed) →
        followStep env true st f =
          ((st.send (Request.FeedGetAuthorFeed f.Handle "" "" 1)).write
            (outputAccount env f (colorFor (env.Now st.sentFeeds) t)
              (env.humanizeTime st.sentFeeds t) false), Exit.returned none))) ∧
    (∀ resp,
      env.FeedGetAuthorFeed st.sentFeeds f.Handle "" "" 1 = Except.ok resp →
      (resp.Feed = [] ∨ ∃ rest, resp.Feed = { Post := none } :: rest) →
      followStep env true st f =
        ((st.send (Request.FeedGetAuthorFeed f.Handle "" "" 1)).write
          (outputAccount env f Attribute.FgHiRed "never" false), Exit.returned none)) := by
  refine ⟨?_, ?_⟩
  · intro post rest t hr hp
    rw [followStep_ok true hr hf]
    refine ⟨?_, ?_⟩
    · intro hc
      rcases hc with hc | hc <;>
        simp [followReport, hp, hc, State.write, State.send]
    · intro hc
      rcases hc with hc | hc <;>
        simp [followReport, hp, hc, State.write, State.send]
  · intro resp hr hn
    rw [followStep_ok true hr hf]
    rcases hn with hn | ⟨rest, hn⟩ <;> simp [followReport, hn]

/-- Witness of `strict_filter_non_mutual`: a non-mutual account that posted 100
days ago is written in yellow. -/
theorem strict_filter_non_mutual_witness :
    followStep (sampleEnv []) true start (account "y.test" none) =
      ((start.send (Request.FeedGetAuthorFeed "y.test" "" "" 1)).write
        (outputAccount (sampleEnv []) (account "y.test" none) Attribute.FgYellow
          "3 months ago" false), Exit.returned none) := by
  have h := ((strict_filter_non_mutual (sampleEnv []) start (account "y.test" none) rfl).1
    { IndexedAt := "2023-09-23T00:00:00Z" } [] (sampleNow - 100 * day)
    (by decide) (by decide)).2 (Or.inl (by decide))
  have hc : colorFor ((sampleEnv []).Now start.sentFeeds) (sampleNow - 100 * day) =
      Attribute.FgYellow := by decide
  have hh : (sampleEnv []).humanizeTime start.sentFeeds (sampleNow - 100 * day) =
      "3 months ago" := by decide
  rw [hc, hh] at h
  exact h

/-- C4, as stated, fails: in strict mode a mutual follow with an empty author
feed is dropped: one latest-post request is sent and nothing is written. -/
theorem never_dropped_when_strict_mutual :
    (sampleEnv []).FeedGetAuthorFeed 0 "a.test" "" "" 1 = Except.ok { Feed := [] } ∧
    getLatestPost (sampleEnv []) start "a.test" =
      ({ reqs := [Request.FeedGetAuthorFeed "a.test" "" "" 1], out := [] }, Except.ok none) ∧
    followStep (sampleEnv []) true start (account "a.test" (some "at://follow/1")) =
      ({ reqs := [Request.FeedGetAuthorFeed "a.test" "" "" 1], out := [] }, Exit.returned none) := by
  decide

/-- C4, amended: an account without latest post (empty author feed, or a first
entry without post), whose viewer state gives the mutual-follow flag, is
written once, in `FgHiRed` with the text "never", for both values of the
strict flag and of the mutual-follow flag, unless the run is strict and the
account follows back. -/
theorem never_is_emitted (env : Env) (strict : Bool) (st : State) (f : ActorDefs_ProfileView)
    (resp : FeedGetAuthorFeed_Output)
    (hr : env.FeedGetAuthorFeed st.sentFeeds f.Handle "" "" 1 = Except.ok resp)
    (hn : resp.Feed = [] ∨ ∃ rest, resp.Feed = { Post := none } :: rest)
    (viewer : ActorDefs_ViewerState) (hv : f.Viewer = some viewer)
    (hs : strict = false ∨ viewer.FollowedBy = none) :
    followStep env strict st f =
      ((st.send (Request.FeedGetAuthorFeed f.Handle "" "" 1)).write
        (outputAccount env f Attribute.FgHiRed "never" viewer.FollowedBy.isSome),
        Exit.returned none) := by
  rw [followStep_ok strict hr hv]
  rcases hs with hs | hs <;> rcases hn with hn | ⟨rest, hn⟩ <;>
    simp [followReport, hs, hn]

/-- Witness of `never_is_emitted`: strict mode, no mutual follow, a first feed
entry without post. -/
theorem never_is_emitted_witness :
    followStep (sampleEnv []) true start (account "e.test" none) =
      ((start.send (Request.FeedGetAuthorFeed "e.test" "" "" 1)).write
        (outputAccount (sampleEnv []) (account "e.test" none) Attribute.FgHiRed "never" false),
        Exit.returned none) :=
  never_is_emitted (sampleEnv []) true start (account "e.test" none)
    { Feed := [{ Post := none }] } (by decide) (Or.inr ⟨[], rfl⟩)
    { FollowedBy := none } rfl (Or.inr rfl)

/-- C7: for an account that does not follow back and whose latest post has a
timestamp that does not parse, the iteration does not fail and writes the
account with the raw timestamp as recency text, in strict mode and without. -/
theorem unparsed_time_is_emitted (env : Env) (strict : Bool) (st : State)
    (f : ActorDefs_ProfileView) (post : FeedDefs_PostView) (rest : List FeedDefs_FeedViewPost)
    (hf : f.Viewer = some { FollowedBy := none })
    (hr : env.FeedGetAuthorFeed st.sentFeeds f.Handle "" "" 1 =
      Except.ok { Feed := { Post := some post } :: rest })
    (hp : env.Parse post.IndexedAt = none) :
    followStep env strict st f =
      ((st.send (Request.FeedGetAuthorFeed f.Handle "" "" 1)).write
        (outputAccount env f Attribute.FgRed post.IndexedAt false), Exit.returned none) := by
  rw [followStep_ok strict hr hf]
  cases strict <;> simp [followReport, hp]

/-- Witness of `unparsed_time_is_emitted`: strict mode, timestamp "yesterday". -/
theorem unparsed_time_is_emitted_witness :
    followStep (sampleEnv []) true start (account "r.test" none) =
      ((start.send (Request.FeedGetAuthorFeed "r.test" "" "" 1)).write
        (outputAccount (sampleEnv []) (account "r.test" none) Attribute.FgRed "yesterday" false),
        Exit.returned none) :=
  unparsed_time_is_emitted (sampleEnv []) true start (account "r.test" none)
    { IndexedAt := "yesterday" } [] rfl (by decide) (by decide)

/-- C8, as stated, fails: for the timestamp "yesterday", which does not parse,
the status colour passed to `outputAccount` is `FgRed`, and `FgRed` is what
`colorFor` returns for a post 400 days old. -/
theorem unparsed_time_colour_is_a_bucket_colour :
    sampleParse "yesterday" = none ∧
    (followStep (sampleEnv []) false start (account "r.test" none)).1.out =
      outputAccount (sampleEnv []) (account "r.test" none)
        (colorFor sampleNow (sampleNow - 400 * day)) "yesterday" false := by
  decide

/-- C8, amended: when the timestamp of the latest post does not parse, an
account that passed the mutual-follow test (it has a viewer state, and the run
is not strict or the account does not follow back) is written with
the raw timestamp and the status colour `FgRed`; this is the colour `colorFor`
gives to a post more than 365 days old, and none of the colours of the three
other buckets. -/
theorem unparsed_time_colour (env : Env) (strict : Bool) (st : State)
    (f : ActorDefs_ProfileView) (post : FeedDefs_PostView) (rest : List FeedDefs_FeedViewPost)
    (hr : env.FeedGetAuthorFeed st.sentFeeds f.Handle "" "" 1 =
      Except.ok { Feed := { Post := some post } :: rest })
    (hp : env.Parse post.IndexedAt = none)
    (viewer : ActorDefs_ViewerState) (hv : f.Viewer = some viewer)
    (hs : strict = false ∨ viewer.FollowedBy = none) :
    (followStep env strict st f).1.out =
      st.out ++ outputAccount env f Attribute.FgRed post.IndexedAt viewer.FollowedBy.isSome ∧
    (∀ now date : Int, 365 * 24 * Hour < now - date → colorFor now date = Attribute.FgRed) ∧
    (∀ now date : Int, now - date ≤ 365 * 24 * Hour → colorFor now date ≠ Attribute.FgRed) := by
  refine ⟨?_, ?_, ?_⟩
  · rw [followStep_ok strict hr hv]
    rcases hs with hs | hs
    · simp [followReport, hs, hp, State.write, State.send]
    · cases strict <;> simp [followReport, hs, hp, State.write, State.send]
  · intro now date h
    simp only [colorFor, Sub, minDuration, maxDuration, Hour] at h ⊢
    split_ifs <;> first | rfl | omega
  · intro now date h
    simp only [colorFor, Sub, minDuration, maxDuration, Hour] at h ⊢
    split_ifs <;> first | omega | simp

/-- Witness of `unparsed_time_colour`: a mutual follow, not strict. -/
theorem unparsed_time_colour_witness :
    (followStep (sampleEnv []) false start (account "r.test" (some "at://follow/2"))).1.out =
      outputAccount (sampleEnv []) (account "r.test" (some "at://follow/2"))
        Attribute.FgRed "yesterday" true :=
  (unparsed_time_colour (sampleEnv []) false start (account "r.test" (some "at://follow/2"))
    { IndexedAt := "yesterday" } [] (by decide) (by decide)
    { FollowedBy := some "at://follow/2" } rfl (Or.inl rfl)).1

/-! ### The loop over the accounts of one page -/

theorem toBool_eq_true {ε α : Type} {x : Except ε α} (h : x.toBool = true) :
    ∃ a, x = Except.ok a := by
  cases x with
  | error e => simp [Except.toBool] at h
  | ok a => exact ⟨a, rfl⟩

theorem latestPost_of_ok {env : Env} {j : Nat} {f : ActorDefs_ProfileView}
    {resp : FeedGetAuthorFeed_Output}
    (h : env.FeedGetAuthorFeed j f.Handle "" "" 1 = Except.ok resp) :
    latestPost env j f = resp.Feed.head? := by
  simp only [latestPost, h]

theorem rangeFollows_ok (env : Env) (strict : Bool) :
    ∀ (fs : List ActorDefs_ProfileView) (st : State),
      stepsOk env st.sentFeeds fs = true →
      rangeFollows env strict st fs =
        ({ reqs := st.reqs ++ fs.map feedReq,
           out := st.out ++ reports env strict st.sentFeeds fs }, Exit.returned none) := by
  intro fs
  induction fs with
  | nil => intro st _; simp [rangeFollows, reports]
  | cons f fs ih =>
    intro st h
    simp only [stepsOk, Bool.and_eq_true] at h
    obtain ⟨resp, hr⟩ := toBool_eq_true h.1.1
    obtain ⟨viewer, hv⟩ := Option.isSome_iff_exists.mp h.1.2
    have h2 := h.2
    rw [rangeFollows, followStep_ok strict hr hv]
    simp only
    rw [ih]
    · simp [reports, latestPost_of_ok hr, feedReq, followsBack, hv]
    · simpa using h2

theorem rangeFollows_fail (env : Env) (strict : Bool) (f : ActorDefs_ProfileView)
    (after : List ActorDefs_ProfileView) (err : GoError) :
    ∀ (before : List ActorDefs_ProfileView) (st : State),
      stepsOk env st.sentFeeds before = true →
      env.FeedGetAuthorFeed (st.sentFeeds + before.length) f.Handle "" "" 1 = Except.error err →
      rangeFollows env strict st (before ++ f :: after) =
        ({ reqs := st.reqs ++ (before ++ [f]).map feedReq,
           out := st.out ++ reports env strict st.sentFeeds before },
          Exit.returned (some (GoError.wrap "getting latest post"
            (GoError.wrap "cannot get author feed" err)))) := by
  intro before
  induction before with
  | nil =>
    intro st _ he
    simp only [List.length_nil, Nat.add_zero] at he
    simp [rangeFollows, followStep_error strict he, reports, State.send, feedReq]
  | cons g before ih =>
    intro st h he
    simp only [stepsOk, Bool.and_eq_true] at h
    obtain ⟨resp, hr⟩ := toBool_eq_true h.1.1
    obtain ⟨viewer, hv⟩ := Option.isSome_iff_exists.mp h.1.2
    have h2 := h.2
    rw [List.cons_append, rangeFollows, followStep_ok strict hr hv]
    simp only
    rw [ih]
    · simp [reports, latestPost_of_ok hr, feedReq, followsBack, hv]
    · simpa using h2
    · simpa [Nat.add_assoc, Nat.add_comm 1] using he

theorem stepsOk_append (env : Env) :
    ∀ (a b : List ActorDefs_ProfileView) (j : Nat),
      stepsOk env j (a ++ b) = (stepsOk env j a && stepsOk env (j + a.length) b) := by
  intro a
  induction a with
  | nil => intro b j; simp [stepsOk]
  | cons f a ih =>
    intro b j
    simp [stepsOk, ih, Bool.and_assoc, Nat.add_assoc, Nat.add_comm 1]

theorem reports_append (env : Env) (strict : Bool) :
    ∀ (a b : List ActorDefs_ProfileView) (j : Nat),
      reports env strict j (a ++ b) =
        reports env strict j a ++ reports env strict (j + a.length) b := by
  intro a
  induction a with
  | nil => intro b j; simp [reports]
  | cons f a ih =>
    intro b j
    simp [reports, ih, Nat.add_assoc, Nat.add_comm 1]

/-! ### The loop over the pages -/

theorem pageLoop_error (env : Env) (arg : String) (strict json : Bool) (fuel : Nat)
    (c : String) (st : State) (err : GoError)
    (hp : env.GraphGetFollows st.sentFollows arg c 100 = Except.error err) :
    pageLoop env arg strict json (fuel + 1) c st =
      some (st.send (Request.GraphGetFollows arg c 100),
        Exit.returned (some (GoError.wrap "getting record" err))) := by
  simp only [pageLoop, hp]

theorem pageLoop_turn (env : Env) (arg : String) (strict json : Bool) (fuel : Nat)
    (c : String) (st : State) (p : GraphGetFollows_Output)
    (hp : env.GraphGetFollows st.sentFollows arg c 100 = Except.ok p)
    (hf : json = true ∨ stepsOk env st.sentFeeds p.Follows = true) :
    pageLoop env arg strict json (fuel + 1) c st =
      match p.Cursor with
      | none =>
        some ({ reqs := st.reqs ++ pageReqs json arg c p,
                out := st.out ++ pageOut env strict json st.sentFeeds p.Follows }, Exit.returned none)
      | some next =>
        pageLoop env arg strict json fuel next
          { reqs := st.reqs ++ pageReqs json arg c p,
            out := st.out ++ pageOut env strict json st.sentFeeds p.Follows } := by
  cases json with
  | true =>
    simp only [pageLoop, hp, if_true, rangeEncode, pageReqs, pageOut]
    cases p.Cursor <;> simp [State.send, State.write]
  | false =>
    have hf2 : stepsOk env (st.send (Request.GraphGetFollows arg c 100)).sentFeeds p.Follows
        = true := by
      rcases hf with hf | hf
      · exact absurd hf (by decide)
      · simpa using hf
    simp only [pageLoop, hp, rangeFollows_ok env strict p.Follows _ hf2, pageReqs, pageOut]
    cases p.Cursor <;> simp

theorem sentFollows_pageReqs (st : State) (json : Bool) (arg c : String)
    (p : GraphGetFollows_Output) (o : List Out) :
    State.sentFollows { reqs := st.reqs ++ pageReqs json arg c p, out := o } =
      st.sentFollows + 1 := by
  have h := countP_isFollows_map_feedReq p.Follows
  cases json
  · simp only [State.sentFollows, pageReqs, List.countP_append, List.countP_cons, h]
    simp [Request.isFollows, feedReq]
  · simp [State.sentFollows, pageReqs, List.countP_append, Request.isFollows]

theorem sentFeeds_pageReqs (st : State) (json : Bool) (arg c : String)
    (p : GraphGetFollows_Output) (o : List Out) :
    State.sentFeeds { reqs := st.reqs ++ pageReqs json arg c p, out := o } =
      st.sentFeeds + (if json then 0 else p.Follows.length) := by
  have h := countP_isFeed_map_feedReq p.Follows
  cases json
  · simp only [State.sentFeeds, pageReqs, List.countP_append, List.countP_cons, h]
    simp [Request.isFeed, feedReq]
  · simp [State.sentFeeds, pageReqs, List.countP_append, Request.isFeed]

theorem pageLoop_pre (env : Env) (arg : String) (strict json : Bool) (fuel : Nat) :
    ∀ (pre : List GraphGetFollows_Output) (c : String) (st : State),
      (∀ p ∈ pre, p.Cursor ≠ none) →
      served env arg st.sentFollows c pre = true →
      (json = true ∨ stepsOk env st.sentFeeds (accounts pre) = true) →
      pageLoop env arg strict json (pre.length + fuel) c st =
        pageLoop env arg strict json fuel (cursorAfter c pre)
          { reqs := st.reqs ++ runReqs json arg c pre,
            out := st.out ++ pageOut env strict json st.sentFeeds (accounts pre) } := by
  intro pre
  induction pre with
  | nil =>
    intro c st _ _ _
    cases json <;> simp [runReqs, cursorAfter, pageOut, accounts, reports]
  | cons p pre ih =>
    intro c st hc hs hf
    simp only [served, Bool.and_eq_true, decide_eq_true_eq] at hs
    obtain ⟨next, hnext⟩ : ∃ next, p.Cursor = some next := by
      have := hc p (List.mem_cons_self _ _)
      cases hcur : p.Cursor with
      | none => exact absurd hcur this
      | some next => exact ⟨next, rfl⟩
    have hf1 : json = true ∨ stepsOk env st.sentFeeds p.Follows = true := by
      rcases hf with hf | hf
      · exact Or.inl hf
      · simp only [accounts, stepsOk_append, Bool.and_eq_true] at hf
        exact Or.inr hf.1
    have hlen : (p :: pre).length + fuel = (pre.length + fuel) + 1 := by
      simp only [List.length_cons]; omega
    rw [hlen, pageLoop_turn env arg strict json _ c st p hs.1 hf1, hnext]
    simp only
    rw [ih]
    · cases json with
      | true => simp [runReqs, cursorAfter, pageOut, accounts, hnext]
      | false =>
        simp [runReqs, cursorAfter, pageOut, accounts, hnext, reports_append,
          sentFeeds_pageReqs]
    · intro q hq
      exact hc q (List.mem_cons_of_mem _ hq)
    · rw [sentFollows_pageReqs]
      simpa [hnext] using hs.2
    · rcases hf with hf | hf
      · exact Or.inl hf
      · simp only [accounts, stepsOk_append, Bool.and_eq_true] at hf
        cases json with
        | true => exact Or.inl rfl
        | false =>
          right
          rw [sentFeeds_pageReqs]
          simpa using hf.2

/-! ### Whole runs -/

theorem accounts_append :
    ∀ (a b : List GraphGetFollows_Output), accounts (a ++ b) = accounts a ++ accounts b := by
  intro a
  induction a with
  | nil => intro b; rfl
  | cons p a ih => intro b; simp [accounts, ih]

theorem served_append (env : Env) (arg : String) :
    ∀ (a b : List GraphGetFollows_Output) (i : Nat) (c : String),
      served env arg i c (a ++ b) =
        (served env arg i c a && served env arg (i + a.length) (cursorAfter c a) b) := by
  intro a
  induction a with
  | nil => intro b i c; simp [served, cursorAfter]
  | cons p a ih =>
    intro b i c
    simp [served, cursorAfter, ih, Bool.and_assoc, Nat.add_assoc, Nat.add_comm 1]

theorem runReqs_append (json : Bool) (arg : String) :
    ∀ (a b : List GraphGetFollows_Output) (c : String),
      runReqs json arg c (a ++ b) = runReqs json arg c a ++ runReqs json arg (cursorAfter c a) b := by
  intro a
  induction a with
  | nil => intro b c; simp [runReqs, cursorAfter]
  | cons p a ih => intro b c; simp [runReqs, cursorAfter, ih]

theorem countP_isFollows_runReqs (json : Bool) (arg : String) :
    ∀ (ps : List GraphGetFollows_Output) (c : String),
      (runReqs json arg c ps).countP Request.isFollows = ps.length := by
  intro ps
  induction ps with
  | nil => intro c; rfl
  | cons p ps ih =>
    intro c
    have h := sentFollows_pageReqs { reqs := [], out := [] } json arg c p []
    simp only [State.sentFollows, List.nil_append, List.countP_nil, Nat.zero_add] at h
    simp [runReqs, List.countP_append, ih, h, Nat.add_comm]

theorem countP_isFeed_runReqs (json : Bool) (arg : String) :
    ∀ (ps : List GraphGetFollows_Output) (c : String),
      (runReqs json arg c ps).countP Request.isFeed =
        if json then 0 else (accounts ps).length := by
  intro ps
  induction ps with
  | nil => intro c; simp [runReqs, accounts]
  | cons p ps ih =>
    intro c
    have h := sentFeeds_pageReqs { reqs := [], out := [] } json arg c p []
    simp only [State.sentFeeds, List.nil_append, List.countP_nil, Nat.zero_add] at h
    rw [runReqs, List.countP_append, ih, h]
    cases json <;> simp [accounts]

theorem filter_isFollows_runReqs (json : Bool) (arg : String) (last : GraphGetFollows_Output) :
    ∀ (pre : List GraphGetFollows_Output) (c : String),
      (runReqs json arg c (pre ++ [last])).filter Request.isFollows =
        (c :: pre.map (fun p => p.Cursor.getD "")).map
          (fun cursor => Request.GraphGetFollows arg cursor 100) := by
  have hfeed : ∀ fs : List ActorDefs_ProfileView,
      (fs.map feedReq).filter Request.isFollows = [] := by
    intro fs
    induction fs with
    | nil => rfl
    | cons f fs ih => simp [feedReq, Request.isFollows] at ih ⊢
  have hpage : ∀ (c : String) (p : GraphGetFollows_Output),
      (pageReqs json arg c p).filter Request.isFollows = [Request.GraphGetFollows arg c 100] := by
    intro c p
    cases json
    · simp only [pageReqs, List.filter_cons, hfeed]
      simp [Request.isFollows, hfeed]
    · simp [pageReqs, Request.isFollows]
  intro pre
  induction pre with
  | nil => intro c; simp [runReqs, hpage]
  | cons p pre ih => intro c; simp [runReqs, hpage, ih]

theorem filter_isFeed_runReqs (arg : String) :
    ∀ (ps : List GraphGetFollows_Output) (c : String),
      (runReqs false arg c ps).filter Request.isFeed = (accounts ps).map feedReq := by
  have hfeed : ∀ fs : List ActorDefs_ProfileView,
      (fs.map feedReq).filter Request.isFeed = fs.map feedReq := by
    intro fs
    induction fs with
    | nil => rfl
    | cons f fs ih => simp [feedReq, Request.isFeed] at ih ⊢
  intro ps
  induction ps with
  | nil => intro c; rfl
  | cons p ps ih =>
    intro c
    simp only [runReqs, pageReqs, List.filter_append, ih, accounts, List.map_append]
    simp [Request.isFeed, hfeed]

theorem doInactiveFollows_eq (env : Env) (cCtx : Context) (fuel : Nat) (authHandle : String)
    (ha : cCtx.argsPresent = false) (hx : env.makeXRPCC = Except.ok authHandle) :
    doInactiveFollows env cCtx fuel =
      pageLoop env (subject cCtx authHandle) cCtx.strict cCtx.json fuel "" start := by
  simp [doInactiveFollows, ha, hx, subject, start]

theorem run_ok (env : Env) (cCtx : Context) (fuel : Nat) (authHandle : String)
    (pre : List GraphGetFollows_Output) (last : GraphGetFollows_Output)
    (ha : cCtx.argsPresent = false) (hx : env.makeXRPCC = Except.ok authHandle)
    (hc : ∀ p ∈ pre, p.Cursor ≠ none) (hl : last.Cursor = none)
    (hs : served env (subject cCtx authHandle) 0 "" (pre ++ [last]) = true)
    (hf : cCtx.json = true ∨ stepsOk env 0 (accounts (pre ++ [last])) = true)
    (hfuel : pre.length + 1 ≤ fuel) :
    doInactiveFollows env cCtx fuel =
      some ({ reqs := runReqs cCtx.json (subject cCtx authHandle) "" (pre ++ [last]),
              out := pageOut env cCtx.strict cCtx.json 0 (accounts (pre ++ [last])) }, Exit.returned none) := by
  obtain ⟨k, rfl⟩ : ∃ k, fuel = pre.length + (k + 1) := ⟨fuel - (pre.length + 1), by omega⟩
  simp only [served_append, Bool.and_eq_true, served, decide_eq_true_eq, Bool.and_true,
    Nat.zero_add] at hs
  have hf1 : cCtx.json = true ∨ stepsOk env start.sentFeeds (accounts pre) = true := by
    rcases hf with hf | hf
    · exact Or.inl hf
    · simp only [accounts_append, stepsOk_append, Bool.and_eq_true] at hf
      exact Or.inr hf.1
  rw [doInactiveFollows_eq env cCtx _ authHandle ha hx,
    pageLoop_pre env _ cCtx.strict cCtx.json (k + 1) pre "" start hc hs.1 hf1]
  have hi : State.sentFollows
      { reqs := start.reqs ++ runReqs cCtx.json (subject cCtx authHandle) "" pre,
        out := start.out ++ pageOut env cCtx.strict cCtx.json start.sentFeeds (accounts pre) }
      = pre.length := by
    simp [State.sentFollows, start, countP_isFollows_runReqs]
  have hj : State.sentFeeds
      { reqs := start.reqs ++ runReqs cCtx.json (subject cCtx authHandle) "" pre,
        out := start.out ++ pageOut env cCtx.strict cCtx.json start.sentFeeds (accounts pre) }
      = if cCtx.json then 0 else (accounts pre).length := by
    simp [State.sentFeeds, start, countP_isFeed_runReqs]
  rw [pageLoop_turn env _ cCtx.strict cCtx.json k _ _ last (by rw [hi]; exact hs.2)
    (by
      cases hjs : cCtx.json with
      | true => exact Or.inl rfl
      | false =>
        rcases hf with hf | hf
        · rw [hjs] at hf; exact absurd hf (by decide)
        · simp only [accounts_append, stepsOk_append, Bool.and_eq_true] at hf
          right
          rw [hjs] at hj
          rw [hj]
          simpa [accounts] using hf.2), hl]
  simp only [hj]
  cases hjs : cCtx.json with
  | true => simp [start, runReqs_append, runReqs, accounts_append, accounts, pageOut]
  | false =>
    simp [start, runReqs_append, runReqs, accounts_append, accounts, pageOut, reports_append,
      State.sentFeeds]

theorem reports_false_eq_entries (env : Env) :
    ∀ (fs : List ActorDefs_ProfileView) (j : Nat), reports env false j fs = entries env j fs := by
  intro fs
  induction fs with
  | nil => intro j; rfl
  | cons f fs ih =>
    intro j
    have h : followReport env false j f (followsBack f) (latestPost env j f) =
        outputAccount env f (recency env j (latestPost env j f)).1
          (recency env j (latestPost env j f)).2 (followsBack f) := by
      cases latestPost env j f with
      | none => simp [followReport, recency]
      | some entry =>
        cases entry with
        | mk post =>
          cases post with
          | none => simp [followReport, recency]
          | some post =>
            cases hp : env.Parse post.IndexedAt <;> simp [followReport, recency, hp]
    simp only [reports, entries, h, ih]

theorem length_entries (env : Env) :
    ∀ (fs : List ActorDefs_ProfileView) (j : Nat), (entries env j fs).length = 13 * fs.length := by
  intro fs
  induction fs with
  | nil => intro j; rfl
  | cons f fs ih =>
    intro j
    simp only [entries, List.length_append, ih, List.length_cons, outputAccount]
    cases followsBack f <;> simp <;> omega

/-- C5, as stated, fails in human-readable mode, in two ways. First: the
server returns one page, without cursor, holding the accounts `x.test` and
`a.test`; the latest-post request for `x.test` fails, the run ends with that
error after one page request, and `a.test` is never handled: no request for it,
no output. Second: the server returns one page, without cursor, holding
`a.test` without viewer state and then `b.test`; the latest-post request for
`a.test` succeeds, the program panics, and `b.test` is never handled. -/
theorem pagination_cut_short :
    (served (sampleEnv [{ Cursor := none, Follows := [account "x.test" none, account "a.test" none] }])
      "me.test" 0 ""
      [{ Cursor := none, Follows := [account "x.test" none, account "a.test" none] }] = true ∧
    doInactiveFollows
      (sampleEnv [{ Cursor := none, Follows := [account "x.test" none, account "a.test" none] }])
      { argsPresent := false, handle := "", strict := false, json := false } 5 =
      some ({ reqs := [Request.GraphGetFollows "me.test" "" 100,
                       Request.FeedGetAuthorFeed "x.test" "" "" 1],
              out := [] },
        Exit.returned (some (GoError.wrap "getting latest post"
          (GoError.wrap "cannot get author feed" (GoError.cause "feed unavailable")))))) ∧
    (served (sampleEnv [{ Cursor := none, Follows := [bareAccount "a.test", account "b.test" none] }])
      "me.test" 0 ""
      [{ Cursor := none, Follows := [bareAccount "a.test", account "b.test" none] }] = true ∧
    (sampleEnv []).FeedGetAuthorFeed 0 "a.test" "" "" 1 = Except.ok { Feed := [] } ∧
    doInactiveFollows
      (sampleEnv [{ Cursor := none, Follows := [bareAccount "a.test", account "b.test" none] }])
      { argsPresent := false, handle := "", strict := false, json := false } 5 =
      some ({ reqs := [Request.GraphGetFollows "me.test" "" 100,
                       Request.FeedGetAuthorFeed "a.test" "" "" 1],
              out := [] },
        Exit.panicked)) := by
  decide

/-- C5, amended: when the server returns the pages `pre`, each carrying a
cursor, and then the page `last` without cursor, and either the run is in JSON
mode or no latest-post request fails and every account carries a viewer state
(`stepsOk`), the run ends without error as soon as the fuel covers the
`pre.length + 1` page requests; these are sent with limit 100, the first with
the empty cursor and each later one with the cursor of the page before; the
accounts of all pages are handled in order. A page of `pre` may hold no
account. -/
theorem pagination_consumes_all_pages (env : Env) (cCtx : Context) (fuel : Nat)
    (authHandle : String) (pre : List GraphGetFollows_Output) (last : GraphGetFollows_Output)
    (ha : cCtx.argsPresent = false) (hx : env.makeXRPCC = Except.ok authHandle)
    (hc : ∀ p ∈ pre, p.Cursor ≠ none) (hl : last.Cursor = none)
    (hs : served env (subject cCtx authHandle) 0 "" (pre ++ [last]) = true)
    (hf : cCtx.json = true ∨ stepsOk env 0 (accounts (pre ++ [last])) = true)
    (hfuel : pre.length + 1 ≤ fuel) :
    doInactiveFollows env cCtx fuel =
      some ({ reqs := runReqs cCtx.json (subject cCtx authHandle) "" (pre ++ [last]),
              out := pageOut env cCtx.strict cCtx.json 0 (accounts (pre ++ [last])) },
        Exit.returned none) ∧
    (runReqs cCtx.json (subject cCtx authHandle) "" (pre ++ [last])).filter Request.isFollows =
      ("" :: pre.map (fun p => p.Cursor.getD "")).map
        (fun cursor => Request.GraphGetFollows (subject cCtx authHandle) cursor 100) ∧
    (runReqs cCtx.json (subject cCtx authHandle) "" (pre ++ [last])).countP Request.isFollows =
      pre.length + 1 ∧
    (cCtx.json = false →
      (runReqs cCtx.json (subject cCtx authHandle) "" (pre ++ [last])).filter Request.isFeed =
        (accounts (pre ++ [last])).map feedReq) := by
  refine ⟨run_ok env cCtx fuel authHandle pre last ha hx hc hl hs hf hfuel,
    filter_isFollows_runReqs _ _ last pre "", ?_, ?_⟩
  · simp [countP_isFollows_runReqs]
  · intro hj
    rw [hj]
    exact filter_isFeed_runReqs _ _ ""

/-- Witness of `pagination_consumes_all_pages`: a first page with a cursor and
no account, then a last page with one account that never posted. -/
theorem pagination_consumes_all_pages_witness :
    doInactiveFollows
      (sampleEnv [{ Cursor := some "c1", Follows := [] },
                  { Cursor := none, Follows := [account "a.test" none] }])
      { argsPresent := false, handle := "", strict := false, json := false } 2 =
      some ({ reqs := [Request.GraphGetFollows "me.test" "" 100,
                       Request.GraphGetFollows "me.test" "c1" 100,
                       Request.FeedGetAuthorFeed "a.test" "" "" 1],
              out := outputAccount (sampleEnv []) (account "a.test" none)
                Attribute.FgHiRed "never" false }, Exit.returned none) :=
  (pagination_consumes_all_pages
    (sampleEnv [{ Cursor := some "c1", Follows := [] },
                { Cursor := none, Follows := [account "a.test" none] }])
    { argsPresent := false, handle := "", strict := false, json := false } 2 "me.test"
    [{ Cursor := some "c1", Follows := [] }]
    { Cursor := none, Follows := [account "a.test" none] }
    rfl rfl (by decide) rfl (by decide) (Or.inr (by decide)) (by decide)).1.trans (by decide)

/-- C9, as stated, fails in two ways, every request succeeding in both. First:
the one followed account has a latest post whose timestamp "yesterday" does
not parse; its entry carries the raw timestamp, which is neither "never" nor a
classification of the post. Second: the one followed account comes without
viewer state; the program panics after the latest-post request and lists
nothing. -/
theorem non_strict_listing_exceptions :
    (sampleParse "yesterday" = none ∧
    doInactiveFollows
      (sampleEnv [{ Cursor := none, Follows := [account "r.test" none] }])
      { argsPresent := false, handle := "", strict := false, json := false } 1 =
      some ({ reqs := [Request.GraphGetFollows "me.test" "" 100,
                       Request.FeedGetAuthorFeed "r.test" "" "" 1],
              out := outputAccount (sampleEnv []) (account "r.test" none)
                Attribute.FgRed "yesterday" false },
        Exit.returned none)) ∧
    ((sampleEnv []).FeedGetAuthorFeed 0 "a.test" "" "" 1 = Except.ok { Feed := [] } ∧
    doInactiveFollows
      (sampleEnv [{ Cursor := none, Follows := [bareAccount "a.test"] }])
      { argsPresent := false, handle := "", strict := false, json := false } 1 =
      some ({ reqs := [Request.GraphGetFollows "me.test" "" 100,
                       Request.FeedGetAuthorFeed "a.test" "" "" 1],
              out := [] },
        Exit.panicked)) := by
  decide

/-- C9, amended: in human-readable mode without strict, when every request
succeeds (the pages `pre` with cursors, then `last` without, and every
latest-post request) and every account carries a viewer state (`stepsOk`), the
output is exactly one `outputAccount` entry per followed account, in arrival
order, page by page: 13 writes per account, among them its handle, display
name, account ID, mutual-follow mark, status colour and recency text, the
recency (`recency`) being "never", or the bucket colour and relative time of
the latest post, or its raw timestamp in `FgRed` when that does not parse. -/
theorem non_strict_lists_every_account (env : Env) (cCtx : Context) (fuel : Nat)
    (authHandle : String) (pre : List GraphGetFollows_Output) (last : GraphGetFollows_Output)
    (ha : cCtx.argsPresent = false) (hx : env.makeXRPCC = Except.ok authHandle)
    (hj : cCtx.json = false) (hstrict : cCtx.strict = false)
    (hc : ∀ p ∈ pre, p.Cursor ≠ none) (hl : last.Cursor = none)
    (hs : served env (subject cCtx authHandle) 0 "" (pre ++ [last]) = true)
    (hf : stepsOk env 0 (accounts (pre ++ [last])) = true)
    (hfuel : pre.length + 1 ≤ fuel) :
    doInactiveFollows env cCtx fuel =
      some ({ reqs := runReqs false (subject cCtx authHandle) "" (pre ++ [last]),
              out := entries env 0 (accounts (pre ++ [last])) }, Exit.returned none) ∧
    (entries env 0 (accounts (pre ++ [last]))).length = 13 * (accounts (pre ++ [last])).length ∧
    (∀ (f : ActorDefs_ProfileView) (cor : Attribute) (text : String) (followsMe : Bool),
      Out.Print f.Handle ∈ outputAccount env f cor text followsMe ∧
      Out.Print (" [" ++ env.stringp f.DisplayName ++ "] ") ∈
        outputAccount env f cor text followsMe ∧
      Out.Print f.Did ∈ outputAccount env f cor text followsMe ∧
      Out.Print (if followsMe then " [💚] " else " [❌] ") ∈
        outputAccount env f cor text followsMe ∧
      Out.Set cor ∈ outputAccount env f cor text followsMe ∧
      Out.Print (" [" ++ text ++ "]\n") ∈ outputAccount env f cor text followsMe) := by
  refine ⟨?_, length_entries env _ 0, ?_⟩
  · rw [run_ok env cCtx fuel authHandle pre last ha hx hc hl hs (Or.inr hf) hfuel, hj, hstrict]
    simp only [pageOut, reports_false_eq_entries]
    simp
  · intro f cor text followsMe
    cases followsMe <;> simp [outputAccount]

/-- Witness of `non_strict_lists_every_account`: following A (never posted),
B (posted 2 days ago, mutual) and C (posted 400 days ago, not mutual) lists A,
B, C with "never", the within-last-week colour and the older-than-a-year
colour. -/
theorem non_strict_lists_every_account_witness :
    doInactiveFollows
      (sampleEnv [{ Cursor := none,
                    Follows := [account "a.test" none, account "b.test" (some "at://follow/b"),
                                account "c.test" none] }])
      { argsPresent := false, handle := "", strict := false, json := false } 1 =
      some ({ reqs := [Request.GraphGetFollows "me.test" "" 100,
                       Request.FeedGetAuthorFeed "a.test" "" "" 1,
                       Request.FeedGetAuthorFeed "b.test" "" "" 1,
                       Request.FeedGetAuthorFeed "c.test" "" "" 1],
              out :=
                outputAccount (sampleEnv []) (account "a.test" none)
                  Attribute.FgHiRed "never" false ++
                outputAccount (sampleEnv []) (account "b.test" (some "at://follow/b"))
                  Attribute.FgGreen "2 days ago" true ++
                outputAccount (sampleEnv []) (account "c.test" none)
                  Attribute.FgRed "1 year ago" false }, Exit.returned none) :=
  (non_strict_lists_every_account
    (sampleEnv [{ Cursor := none,
                  Follows := [account "a.test" none, account "b.test" (some "at://follow/b"),
                              account "c.test" none] }])
    { argsPresent := false, handle := "", strict := false, json := false } 1 "me.test" []
    { Cursor := none,
      Follows := [account "a.test" none, account "b.test" (some "at://follow/b"),
                  account "c.test" none] }
    rfl rfl rfl rfl (by decide) rfl (by decide) (by decide) (by decide)).1.trans (by decide)

/-! ### JSON mode -/

theorem pageLoop_json_strict (env : Env) (arg : String) (s1 s2 : Bool) :
    ∀ (fuel : Nat) (c : String) (st : State),
      pageLoop env arg s1 true fuel c st = pageLoop env arg s2 true fuel c st := by
  intro fuel
  induction fuel with
  | zero => intro c st; rfl
  | succ fuel ih =>
    intro c st
    simp only [pageLoop, if_true]
    cases env.GraphGetFollows st.sentFollows arg c 100 with
    | error err => rfl
    | ok follows =>
      simp only
      cases follows.Cursor with
      | none => rfl
      | some next => exact ih _ _

theorem isFeed_runReqs_json (arg : String) :
    ∀ (ps : List GraphGetFollows_Output) (c : String),
      ∀ q ∈ runReqs true arg c ps, q.isFeed = false := by
  intro ps
  induction ps with
  | nil => intro c q hq; simp [runReqs] at hq
  | cons p ps ih =>
    intro c q hq
    simp only [runReqs, pageReqs, if_true, List.cons_append, List.nil_append,
      List.mem_cons] at hq
    rcases hq with hq | hq
    · rw [hq]; rfl
    · exact ih _ q hq

theorem pageLoop_json_sound (env : Env) (arg : String) (strict : Bool) :
    ∀ (fuel : Nat) (c : String) (st : State) (res : State × Exit),
      pageLoop env arg strict true fuel c st = some res →
      ∃ ps, served env arg st.sentFollows c ps = true ∧
        res.1.out = st.out ++ (accounts ps).map Out.Encode ∧
        ((res.1.reqs = st.reqs ++ runReqs true arg c ps ∧ res.2 = Exit.returned none) ∨
          ∃ err, env.GraphGetFollows (st.sentFollows + ps.length) arg (cursorAfter c ps) 100 =
              Except.error err ∧
            res.1.reqs = st.reqs ++ runReqs true arg c ps ++
              [Request.GraphGetFollows arg (cursorAfter c ps) 100] ∧
            res.2 = Exit.returned (some (GoError.wrap "getting record" err))) := by
  intro fuel
  induction fuel with
  | zero => intro c st res h; simp [pageLoop] at h
  | succ fuel ih =>
    intro c st res h
    cases hp : env.GraphGetFollows st.sentFollows arg c 100 with
    | error err =>
      rw [pageLoop_error env arg strict true fuel c st err hp] at h
      refine ⟨[], rfl, ?_, Or.inr ⟨err, ?_, ?_, ?_⟩⟩
      · simp [← Option.some.inj h, accounts]
      · simpa [cursorAfter] using hp
      · simp [← Option.some.inj h, runReqs, cursorAfter]
      · simp [← Option.some.inj h]
    | ok p =>
      rw [pageLoop_turn env arg strict true fuel c st p hp (Or.inl rfl)] at h
      cases hcur : p.Cursor with
      | none =>
        rw [hcur] at h
        refine ⟨[p], ?_, ?_, Or.inl ⟨?_, ?_⟩⟩
        · simp [served, hp]
        · simp [← Option.some.inj h, accounts, pageOut]
        · simp [← Option.some.inj h, runReqs]
        · simp [← Option.some.inj h]
      | some next =>
        rw [hcur] at h
        obtain ⟨ps, h1, h2, h3⟩ := ih _ _ _ h
        rw [sentFollows_pageReqs] at h1 h3
        refine ⟨p :: ps, ?_, ?_, ?_⟩
        · simp [served, hp, hcur, h1]
        · simp [h2, accounts, pageOut]
        · rcases h3 with ⟨h3, h4⟩ | ⟨err, h3, h4, h5⟩
          · exact Or.inl ⟨by simp [h3, runReqs, hcur], h4⟩
          · refine Or.inr ⟨err, ?_, ?_, h5⟩
            · simpa [cursorAfter, hcur, Nat.add_assoc, Nat.add_comm 1] using h3
            · simp [h4, runReqs, cursorAfter, hcur]

/-- C10: in JSON mode the strict flag changes nothing; whatever pages the
server returns during a run, the output is one encoded object per account of
these pages, in arrival order, and no latest-post request is sent; when the
server returns the pages `pre` with cursors and then `last` without, the run
ends without error as soon as the fuel covers the page requests. -/
theorem json_mode_ignores_strict (env : Env) (cCtx : Context) (fuel : Nat)
    (authHandle : String)
    (ha : cCtx.argsPresent = false) (hx : env.makeXRPCC = Except.ok authHandle)
    (hj : cCtx.json = true) :
    doInactiveFollows env { cCtx with strict := true } fuel =
      doInactiveFollows env { cCtx with strict := false } fuel ∧
    (∀ res, doInactiveFollows env cCtx fuel = some res →
      ∃ ps, served env (subject cCtx authHandle) 0 "" ps = true ∧
        res.1.out = (accounts ps).map Out.Encode ∧
        (∀ q ∈ res.1.reqs, q.isFeed = false) ∧
        ((res.1.reqs = runReqs true (subject cCtx authHandle) "" ps ∧ res.2 = Exit.returned none) ∨
          ∃ err, res.1.reqs = runReqs true (subject cCtx authHandle) "" ps ++
              [Request.GraphGetFollows (subject cCtx authHandle) (cursorAfter "" ps) 100] ∧
            res.2 = Exit.returned (some (GoError.wrap "getting record" err)))) ∧
    (∀ (pre : List GraphGetFollows_Output) (last : GraphGetFollows_Output),
      (∀ p ∈ pre, p.Cursor ≠ none) → last.Cursor = none →
      served env (subject cCtx authHandle) 0 "" (pre ++ [last]) = true →
      pre.length + 1 ≤ fuel →
      doInactiveFollows env cCtx fuel =
        some ({ reqs := runReqs true (subject cCtx authHandle) "" (pre ++ [last]),
                out := (accounts (pre ++ [last])).map Out.Encode }, Exit.returned none)) := by
  refine ⟨?_, ?_, ?_⟩
  · rw [doInactiveFollows_eq env { cCtx with strict := true } fuel authHandle ha hx,
      doInactiveFollows_eq env { cCtx with strict := false } fuel authHandle ha hx]
    simp only [hj, subject]
    exact pageLoop_json_strict env _ true false fuel "" start
  · intro res h
    rw [doInactiveFollows_eq env cCtx fuel authHandle ha hx, hj] at h
    obtain ⟨ps, h1, h2, h3⟩ := pageLoop_json_sound env _ _ fuel "" start res h
    refine ⟨ps, h1, by simpa [start] using h2, ?_, ?_⟩
    · intro q hq
      rcases h3 with ⟨h3, _⟩ | ⟨err, _, h3, _⟩
      · rw [h3] at hq
        simp only [start, List.nil_append] at hq
        exact isFeed_runReqs_json _ ps "" q hq
      · rw [h3] at hq
        simp only [start, List.nil_append, List.mem_append, List.mem_singleton] at hq
        rcases hq with hq | hq
        · exact isFeed_runReqs_json _ ps "" q hq
        · rw [hq]; rfl
    · rcases h3 with ⟨h3, h4⟩ | ⟨err, _, h3, h4⟩
      · exact Or.inl ⟨by simpa [start] using h3, h4⟩
      · exact Or.inr ⟨err, by simpa [start] using h3, h4⟩
  · intro pre last hc hl hs hfuel
    rw [run_ok env cCtx fuel authHandle pre last ha hx hc hl hs (Or.inl hj) hfuel, hj]
    simp [pageOut]

/-- Witness of `json_mode_ignores_strict`: two pages, the first with a mutual
follow, the second with an account whose author feed is unavailable; strict
and non-strict runs are equal. -/
theorem json_mode_ignores_strict_witness :
    doInactiveFollows
      (sampleEnv [{ Cursor := some "c1", Follows := [account "b.test" (some "at://follow/b")] },
                  { Cursor := none, Follows := [account "x.test" none] }])
      { argsPresent := false, handle := "you.test", strict := true, json := true } 2 =
    doInactiveFollows
      (sampleEnv [{ Cursor := some "c1", Follows := [account "b.test" (some "at://follow/b")] },
                  { Cursor := none, Follows := [account "x.test" none] }])
      { argsPresent := false, handle := "you.test", strict := false, json := true } 2 :=
  (json_mode_ignores_strict
    (sampleEnv [{ Cursor := some "c1", Follows := [account "b.test" (some "at://follow/b")] },
                { Cursor := none, Follows := [account "x.test" none] }])
    { argsPresent := false, handle := "you.test", strict := true, json := true } 2 "me.test"
    rfl rfl rfl).1

/-! ### A failing latest-post request -/

theorem reports_congr (env env2 : Env) (strict : Bool)
    (hN : env2.Now = env.Now) (hP : env2.Parse = env.Parse)
    (hH : env2.humanizeTime = env.humanizeTime) (hS : env2.stringp = env.stringp) :
    ∀ (fs : List ActorDefs_ProfileView) (j : Nat),
      (∀ i, i < j + fs.length → ∀ handle,
        env2.FeedGetAuthorFeed i handle "" "" 1 = env.FeedGetAuthorFeed i handle "" "" 1) →
      reports env2 strict j fs = reports env strict j fs := by
  intro fs
  induction fs with
  | nil => intro j _; rfl
  | cons f fs ih =>
    intro j h
    have hl : latestPost env2 j f = latestPost env j f := by
      simp only [latestPost, h j (by simp)]
    have hr : ∀ m lp, followReport env2 strict j f m lp = followReport env strict j f m lp := by
      intro m lp
      simp only [followReport, outputAccount, hN, hP, hH, hS]
    simp only [reports, hl, hr]
    rw [ih (j + 1) (fun i hi handle => h i (by simp only [List.length_cons]; omega) handle)]

theorem pageLoop_feed_error (env : Env) (arg : String) (strict : Bool) (fuel : Nat)
    (c : String) (st : State) (p : GraphGetFollows_Output)
    (before after : List ActorDefs_ProfileView) (f : ActorDefs_ProfileView) (err : GoError)
    (hp : env.GraphGetFollows st.sentFollows arg c 100 = Except.ok p)
    (hfs : p.Follows = before ++ f :: after)
    (hb : stepsOk env st.sentFeeds before = true)
    (he : env.FeedGetAuthorFeed (st.sentFeeds + before.length) f.Handle "" "" 1 =
      Except.error err) :
    pageLoop env arg strict false (fuel + 1) c st =
      some ({ reqs := st.reqs ++ Request.GraphGetFollows arg c 100 :: (before ++ [f]).map feedReq,
              out := st.out ++ reports env strict st.sentFeeds before },
        Exit.returned (some (GoError.wrap "getting latest post"
          (GoError.wrap "cannot get author feed" err)))) := by
  have h := rangeFollows_fail env strict f after err before
    (st.send (Request.GraphGetFollows arg c 100)) (by simpa using hb) (by simpa using he)
  simp only [pageLoop, hp, hfs, h]
  simp

theorem run_feed_error (env : Env) (cCtx : Context) (fuel : Nat) (authHandle : String)
    (pre : List GraphGetFollows_Output) (p : GraphGetFollows_Output)
    (before after : List ActorDefs_ProfileView) (f : ActorDefs_ProfileView) (err : GoError)
    (ha : cCtx.argsPresent = false) (hx : env.makeXRPCC = Except.ok authHandle)
    (hj : cCtx.json = false)
    (hc : ∀ q ∈ pre, q.Cursor ≠ none) (hp : p.Follows = before ++ f :: after)
    (hs : served env (subject cCtx authHandle) 0 "" (pre ++ [p]) = true)
    (hf : stepsOk env 0 (accounts pre ++ before) = true)
    (he : env.FeedGetAuthorFeed (accounts pre ++ before).length f.Handle "" "" 1 =
      Except.error err)
    (hfuel : pre.length + 1 ≤ fuel) :
    doInactiveFollows env cCtx fuel =
      some ({ reqs := runReqs false (subject cCtx authHandle) "" pre ++
                Request.GraphGetFollows (subject cCtx authHandle) (cursorAfter "" pre) 100 ::
                  (before ++ [f]).map feedReq,
              out := reports env cCtx.strict 0 (accounts pre ++ before) },
        Exit.returned (some (GoError.wrap "getting latest post"
          (GoError.wrap "cannot get author feed" err)))) := by
  obtain ⟨k, rfl⟩ : ∃ k, fuel = pre.length + (k + 1) := ⟨fuel - (pre.length + 1), by omega⟩
  simp only [served_append, Bool.and_eq_true, served, decide_eq_true_eq, Bool.and_true,
    Nat.zero_add] at hs
  simp only [stepsOk_append, Bool.and_eq_true, Nat.zero_add] at hf
  rw [doInactiveFollows_eq env cCtx _ authHandle ha hx, hj,
    pageLoop_pre env _ cCtx.strict false (k + 1) pre "" start hc hs.1 (Or.inr hf.1)]
  have hi : State.sentFollows
      { reqs := start.reqs ++ runReqs false (subject cCtx authHandle) "" pre,
        out := start.out ++ pageOut env cCtx.strict false start.sentFeeds (accounts pre) }
      = pre.length := by
    simp [State.sentFollows, start, countP_isFollows_runReqs]
  have hk : State.sentFeeds
      { reqs := start.reqs ++ runReqs false (subject cCtx authHandle) "" pre,
        out := start.out ++ pageOut env cCtx.strict false start.sentFeeds (accounts pre) }
      = (accounts pre).length := by
    simp [State.sentFeeds, start, countP_isFeed_runReqs]
  rw [pageLoop_feed_error env _ cCtx.strict k _ _ p before after f err
    (by rw [hi]; exact hs.2) hp (by rw [hk]; exact hf.2)
    (by rw [hk]; simpa using he)]
  simp only [hk]
  simp [start, pageOut, reports_append, State.sentFeeds]

/-- C6: in human-readable mode, strict or not, when the latest-post request
for the account `f` fails and the iterations for all accounts before it ended
normally (`stepsOk`: their requests succeeded), the
run returns the error "getting latest post" wrapping "cannot get author feed"
wrapping the cause; the failed request is the last request sent; the output
holds the writes for the accounts before `f` only, and a fully successful run
(a world that answers the earlier latest-post requests alike and serves all
pages) writes exactly this output first, then the writes for `f` and the later
accounts. -/
theorem latest_post_failure_aborts (env : Env) (cCtx : Context) (fuel : Nat)
    (authHandle : String)
    (pre : List GraphGetFollows_Output) (p : GraphGetFollows_Output)
    (before after : List ActorDefs_ProfileView) (f : ActorDefs_ProfileView) (err : GoError)
    (ha : cCtx.argsPresent = false) (hx : env.makeXRPCC = Except.ok authHandle)
    (hj : cCtx.json = false)
    (hc : ∀ q ∈ pre, q.Cursor ≠ none) (hp : p.Follows = before ++ f :: after)
    (hs : served env (subject cCtx authHandle) 0 "" (pre ++ [p]) = true)
    (hf : stepsOk env 0 (accounts pre ++ before) = true)
    (he : env.FeedGetAuthorFeed (accounts pre ++ before).length f.Handle "" "" 1 =
      Except.error err)
    (hfuel : pre.length + 1 ≤ fuel) :
    doInactiveFollows env cCtx fuel =
      some ({ reqs := runReqs false (subject cCtx authHandle) "" pre ++
                Request.GraphGetFollows (subject cCtx authHandle) (cursorAfter "" pre) 100 ::
                  (before ++ [f]).map feedReq,
              out := reports env cCtx.strict 0 (accounts pre ++ before) },
        Exit.returned (some (GoError.wrap "getting latest post"
          (GoError.wrap "cannot get author feed" err)))) ∧
    (∀ (env2 : Env) (fuel2 : Nat) (qs post : List GraphGetFollows_Output)
        (last : GraphGetFollows_Output),
      env2.Now = env.Now → env2.Parse = env.Parse →
      env2.humanizeTime = env.humanizeTime → env2.stringp = env.stringp →
      env2.makeXRPCC = env.makeXRPCC →
      (∀ i, i < (accounts pre ++ before).length → ∀ handle,
        env2.FeedGetAuthorFeed i handle "" "" 1 = env.FeedGetAuthorFeed i handle "" "" 1) →
      qs ++ [last] = pre ++ p :: post →
      (∀ q ∈ qs, q.Cursor ≠ none) → last.Cursor = none →
      served env2 (subject cCtx authHandle) 0 "" (qs ++ [last]) = true →
      stepsOk env2 0 (accounts (qs ++ [last])) = true →
      qs.length + 1 ≤ fuel2 →
      doInactiveFollows env2 cCtx fuel2 =
        some ({ reqs := runReqs false (subject cCtx authHandle) "" (qs ++ [last]),
                out := reports env cCtx.strict 0 (accounts pre ++ before) ++
                  reports env2 cCtx.strict (accounts pre ++ before).length
                    (f :: after ++ accounts post) }, Exit.returned none)) := by
  refine ⟨run_feed_error env cCtx fuel authHandle pre p before after f err ha hx hj hc hp hs hf
    he hfuel, ?_⟩
  intro env2 fuel2 qs post last hN hP hH hS hX hagree hpages hqc hl hs2 hf2 hfuel2
  rw [run_ok env2 cCtx fuel2 authHandle qs last ha (hX.trans hx) hqc hl hs2 (Or.inr hf2) hfuel2,
    hj]
  have hacc : accounts (qs ++ [last]) =
      (accounts pre ++ before) ++ (f :: after ++ accounts post) := by
    rw [hpages, accounts_append]
    simp [accounts, hp]
  have hcongr := reports_congr env env2 cCtx.strict hN hP hH hS (accounts pre ++ before) 0
    (by simpa using hagree)
  simp only [pageOut, hacc, reports_append, hcongr, Nat.zero_add]
  simp

/-- Witness of `latest_post_failure_aborts`: the second page holds a mutual
follow, then `x.test` whose author feed is unavailable, then another account;
the run stops at the request for `x.test`. -/
theorem latest_post_failure_aborts_witness :
    doInactiveFollows
      (sampleEnv [{ Cursor := some "c1", Follows := [account "a.test" none] },
                  { Cursor := none,
                    Follows := [account "b.test" (some "at://follow/b"), account "x.test" none,
                                account "c.test" none] }])
      { argsPresent := false, handle := "", strict := false, json := false } 2 =
      some ({ reqs := [Request.GraphGetFollows "me.test" "" 100,
                       Request.FeedGetAuthorFeed "a.test" "" "" 1,
                       Request.GraphGetFollows "me.test" "c1" 100,
                       Request.FeedGetAuthorFeed "b.test" "" "" 1,
                       Request.FeedGetAuthorFeed "x.test" "" "" 1],
              out :=
                outputAccount (sampleEnv []) (account "a.test" none)
                  Attribute.FgHiRed "never" false ++
                outputAccount (sampleEnv []) (account "b.test" (some "at://follow/b"))
                  Attribute.FgGreen "2 days ago" true },
        Exit.returned (some (GoError.wrap "getting latest post"
          (GoError.wrap "cannot get author feed" (GoError.cause "feed unavailable"))))) :=
  (latest_post_failure_aborts
    (sampleEnv [{ Cursor := some "c1", Follows := [account "a.test" none] },
                { Cursor := none,
                  Follows := [account "b.test" (some "at://follow/b"), account "x.test" none,
                              account "c.test" none] }])
    { argsPresent := false, handle := "", strict := false, json := false } 2 "me.test"
    [{ Cursor := some "c1", Follows := [account "a.test" none] }]
    { Cursor := none,
      Follows := [account "b.test" (some "at://follow/b"), account "x.test" none,
                  account "c.test" none] }
    [account "b.test" (some "at://follow/b")] [account "c.test" none] (account "x.test" none)
    (GoError.cause "feed unavailable")
    rfl rfl rfl (by decide) rfl (by decide) (by decide) (by decide) (by decide)).1.trans
    (by decide)

end Bsky
